import Mathlib

/-!
App Store signed-transaction decoding (`apple/internal/claims.go`, `apple/transaction_type.go`)

A shallow embedding of the verify-then-decode pipeline:

* `DecodeCert`, `DecodePublicKey`, `VerifyCert`, `DecodeClaims` from `apple/internal/claims.go`;
* `DecodeSignedTransaction` from `apple/transaction_type.go`.

Go strings and byte slices are lists of bytes.  A Go call either returns or panics, which is
recorded by `Run`; a Go `(value, error)` result is an `Except GoError value`.

The two base64 codecs the code calls (`base64.RawStdEncoding`, `base64.StdEncoding`) and
`strings.Split` are modelled executably.  The remaining library entry points the code calls
(`json.Unmarshal`, `x509.ParseCertificate`, `CertPool.AppendCertsFromPEM`, `Certificate.Verify`,
`jwt.ParseWithClaims`) are fields of `Libs` and `JwtLib`, so every general theorem holds for
whatever these libraries compute.
-/

namespace Apple

/-! ## Go runtime values -/

/-- A Go `string` or `[]byte`: a finite sequence of bytes. -/
abbrev Bytes := List UInt8

/-- The bytes of a text literal (UTF-8; the literals used below are ASCII). -/
def bytesOf (s : String) : Bytes :=
  s.toList.map (fun c => UInt8.ofNat c.toNat)

/-- Go `error` values that reach the caller of this package. -/
inductive GoError where
  /-- An error made by `errors.New(text)` or by `fmt.Errorf(text)` with a constant text. -/
  | text (msg : String)
  /-- A `base64.CorruptInputError(offset)`. -/
  | corruptInput (offset : Nat)
  /-- An error produced inside `encoding/json`, `crypto/x509` or `golang-jwt`. -/
  | library (pkg : String) (detail : String)
  deriving DecidableEq, Repr

instance instDecidableEqExcept {ε α : Type} [DecidableEq ε] [DecidableEq α] :
    DecidableEq (Except ε α)
  | .ok a, .ok b => if h : a = b then isTrue (by rw [h]) else isFalse (by simpa using h)
  | .error a, .error b => if h : a = b then isTrue (by rw [h]) else isFalse (by simpa using h)
  | .ok _, .error _ => isFalse (by simp)
  | .error _, .ok _ => isFalse (by simp)

/-- Outcome of running a Go function: it returns a value or it panics. -/
inductive Run (α : Type) where
  | ret (a : α)
  | panic (msg : String)
  deriving DecidableEq, Repr

/-- Go index expression `xs[i]` with an `int` index: a run-time panic when `i` is outside
`0 ≤ i < len(xs)`. -/
def goIndex {α : Type} (xs : List α) (i : Int) : Run α :=
  if i < 0 then .panic "index out of range"
  else
    match xs.get? i.toNat with
    | some x => .ret x
    | none => .panic "index out of range"

/-! ## `strings.Split` -/

/-- The call `strings.Split(s, sep)` for a one-byte separator: the pieces of `s` between
occurrences of `sep`; always at least one piece. -/
def stringsSplit : Bytes → UInt8 → List Bytes
  | [], _ => [[]]
  | c :: rest, sep =>
    if c = sep then [] :: stringsSplit rest sep
    else
      match stringsSplit rest sep with
      | [] => [[c]]
      | piece :: pieces => (c :: piece) :: pieces

/-- The byte `.` that separates the segments of a compact token. -/
def dot : UInt8 := 46

/-! ## `encoding/base64` -/

/-- A base64 `Encoding`: its 64-character alphabet and its padding character
(`none` is Go's `NoPadding`).  Both encodings used here are non-strict. -/
structure Encoding where
  alphabet : Bytes
  padChar : Option UInt8
  deriving DecidableEq, Repr

/-- The standard base64 alphabet, `A-Z a-z 0-9 + /`. -/
def encodeStd : Bytes :=
  bytesOf "ABCDEFGHIJKLMNOPQRSTUVWXYZabcdefghijklmnopqrstuvwxyz0123456789+/"

/-- The URL-safe base64 alphabet, `A-Z a-z 0-9 - _`. -/
def encodeURL : Bytes :=
  bytesOf "ABCDEFGHIJKLMNOPQRSTUVWXYZabcdefghijklmnopqrstuvwxyz0123456789-_"

/-- The Go value `base64.StdEncoding`: standard alphabet, padded with `=`. -/
def StdEncoding : Encoding := ⟨encodeStd, some 61⟩

/-- The Go value `base64.RawStdEncoding`: standard alphabet, no padding. -/
def RawStdEncoding : Encoding := ⟨encodeStd, none⟩

/-- The Go value `base64.RawURLEncoding`: URL-safe alphabet, no padding. -/
def RawURLEncoding : Encoding := ⟨encodeURL, none⟩

/-- Position of byte `c` in an alphabet, counted from `k`; `0xff` when `c` is absent. -/
def alphabetIndex : Bytes → UInt8 → Nat → Nat
  | [], _, _ => 255
  | a :: rest, c, k => if a = c then k else alphabetIndex rest c (k + 1)

/-- The table `enc.decodeMap`: the 6-bit value of an alphabet byte, `0xff` for any other byte. -/
def Encoding.decodeMap (enc : Encoding) (c : UInt8) : Nat :=
  alphabetIndex enc.alphabet c 0

/-- The table `enc.encode`: the alphabet byte of a 6-bit value. -/
def Encoding.encodeChar (enc : Encoding) (v : Nat) : UInt8 :=
  enc.alphabet.getD v 0

/-- Line feed or carriage return, which the decoder skips. -/
def isNewline (c : UInt8) : Bool := c = 10 || c = 13

/-- Drop leading `\n` and `\r` bytes, counting how many were dropped. -/
def skipNewlines : Bytes → Nat → Bytes × Nat
  | [], si => ([], si)
  | c :: rest, si => if isNewline c then skipNewlines rest (si + 1) else (c :: rest, si)

/-- The bytes a quantum of `dlen` six-bit values yields.  `acc` holds the `dlen` values read so
far, most significant first; Go shifts them into a 24-bit word and keeps `dlen - 1` bytes. -/
def quantumBytes (dlen acc : Nat) : Bytes :=
  let val := acc * 64 ^ (4 - dlen)
  ([UInt8.ofNat (val / 65536 % 256), UInt8.ofNat (val / 256 % 256),
    UInt8.ofNat (val % 256)] : Bytes).take (dlen - 1)

/-- Finish a quantum after its first padding byte has been read with `j` values decoded.
`si` is the offset just past that padding byte and `rest` the input from there. -/
def decodePadding (pad : UInt8) (rest : Bytes) (si j acc : Nat) : Except GoError Bytes :=
  if j < 2 then .error (.corruptInput (si - 1))
  else
    let afterSecond : Except GoError (Bytes × Nat) :=
      if j = 2 then
        match skipNewlines rest si with
        | ([], si1) => .error (.corruptInput si1)
        | (c :: rest1, si1) =>
          if c ≠ pad then .error (.corruptInput (si1 - 1)) else .ok (rest1, si1 + 1)
      else .ok (rest, si)
    match afterSecond with
    | .error e => .error e
    | .ok (rest2, si2) =>
      match skipNewlines rest2 si2 with
      | ([], _) => .ok (quantumBytes j acc)
      | (_ :: _, si3) => .error (.corruptInput si3)

/-- The loop of `Encoding.Decode` over `decodeQuantum`: `src` is the input still to read, `si`
its offset, `j` the number of six-bit values of the current quantum read so far and `acc`
their value.  On an error Go also hands back the bytes decoded so far; both callers drop them,
so only the error is kept. -/
def decodeLoop (enc : Encoding) : Bytes → Nat → Nat → Nat → Except GoError Bytes
  | [], si, j, acc =>
    if j = 0 then .ok []
    else if j = 1 ∨ enc.padChar ≠ none then .error (.corruptInput (si - j))
    else .ok (quantumBytes j acc)
  | c :: rest, si, j, acc =>
    let out := enc.decodeMap c
    if out ≠ 255 then
      if j = 3 then
        match decodeLoop enc rest (si + 1) 0 0 with
        | .error e => .error e
        | .ok tail => .ok (quantumBytes 4 (acc * 64 + out) ++ tail)
      else decodeLoop enc rest (si + 1) (j + 1) (acc * 64 + out)
    else if isNewline c then decodeLoop enc rest (si + 1) j acc
    else
      match enc.padChar with
      | none => .error (.corruptInput si)
      | some pad =>
        if c ≠ pad then .error (.corruptInput si)
        else decodePadding pad rest (si + 1) j acc

/-- The method `enc.DecodeString(s)`. -/
def Encoding.DecodeString (enc : Encoding) (s : Bytes) : Except GoError Bytes :=
  decodeLoop enc s 0 0 0

/-- The method `enc.EncodeToString(src)`: three bytes become four alphabet bytes; a final group
of one or two bytes becomes two or three alphabet bytes, followed by padding when the encoding
has a padding character. -/
def Encoding.EncodeToString (enc : Encoding) : Bytes → Bytes
  | [] => []
  | [a] =>
    let val := a.toNat * 65536
    [enc.encodeChar (val / 262144 % 64), enc.encodeChar (val / 4096 % 64)]
      ++ (match enc.padChar with | none => [] | some p => [p, p])
  | [a, b] =>
    let val := a.toNat * 65536 + b.toNat * 256
    [enc.encodeChar (val / 262144 % 64), enc.encodeChar (val / 4096 % 64),
      enc.encodeChar (val / 64 % 64)]
      ++ (match enc.padChar with | none => [] | some p => [p])
  | a :: b :: c :: rest =>
    let val := a.toNat * 65536 + b.toNat * 256 + c.toNat
    enc.encodeChar (val / 262144 % 64) :: enc.encodeChar (val / 4096 % 64)
      :: enc.encodeChar (val / 64 % 64) :: enc.encodeChar (val % 64)
      :: Encoding.EncodeToString enc rest

/-! ## Library types -/

/-- An `*ecdsa.PublicKey`: a curve and a point on it. -/
structure ECDSAPublicKey where
  Curve : String
  X : Nat
  Y : Nat
  deriving DecidableEq, Repr

/-- The dynamic value of the field `Certificate.PublicKey`, by key family. -/
inductive PublicKey where
  | ecdsa (pk : ECDSAPublicKey)
  | rsa (N E : Nat)
  | ed25519 (key : Bytes)
  | unknown
  deriving DecidableEq, Repr

/-- The fields of a parsed `*x509.Certificate` that this package or its chain validation
reads. -/
structure Certificate where
  Raw : Bytes
  RawSubject : Bytes
  RawIssuer : Bytes
  PublicKey : PublicKey
  deriving DecidableEq, Repr

/-- An `x509.CertPool`, as the certificates added to it in order. -/
abbrev CertPool := List Certificate

/-- The fields of `x509.VerifyOptions` that `VerifyCert` sets. -/
structure VerifyOptions where
  Roots : CertPool
  Intermediates : CertPool
  deriving DecidableEq, Repr

/-- The struct `Header` of `claims.go`. -/
structure Header where
  Alg : Bytes
  X5C : List Bytes
  deriving DecidableEq, Repr

/-- The token value `*jwt.Token` handed to a key function and returned by the parser. -/
structure Token where
  Raw : Bytes
  Valid : Bool
  deriving DecidableEq, Repr

/-- The standard-library entry points `claims.go` calls, other than base64 and `strings.Split`. -/
structure Libs where
  /-- The call `json.Unmarshal(data, &header)` on a nil `*Header`: an error, or the pointer it
  leaves in `header` (`none` is a nil pointer). -/
  jsonUnmarshalHeader : Bytes → Except GoError (Option Header)
  /-- The call `x509.ParseCertificate(der)`. -/
  ParseCertificate : Bytes → Except GoError Certificate
  /-- The certificates `pool.AppendCertsFromPEM(pem)` adds to the pool; the call reports `true`
  when it added at least one. -/
  certsFromPEM : Bytes → List Certificate
  /-- The call `c.Verify(opts)`: the verified chains, or the reason no chain was found. -/
  Verify : Certificate → VerifyOptions → Except GoError (List (List Certificate))

/-- The entry point `jwt.ParseWithClaims(tokenString, claims, keyFunc)` for a claims target of
type `C`.  The parser writes into the caller's target, so it returns the state it leaves the
target in together with its `(token, error)` result. -/
structure JwtLib (C : Type) where
  ParseWithClaims :
    Bytes → C → (Token → Run (Except GoError PublicKey)) → Run (C × Except GoError Token)

/-! ## `apple/internal/claims.go` -/

/-- The constant `kRootPEM`: the pinned root certificate, PEM encoded. -/
def kRootPEM : String :=
  "\n-----BEGIN CERTIFICATE-----\n" ++
  "MIICQzCCAcmgAwIBAgIILcX8iNLFS5UwCgYIKoZIzj0EAwMwZzEbMBkGA1UEAwwS\n" ++
  "QXBwbGUgUm9vdCBDQSAtIEczMSYwJAYDVQQLDB1BcHBsZSBDZXJ0aWZpY2F0aW9u\n" ++
  "IEF1dGhvcml0eTETMBEGA1UECgwKQXBwbGUgSW5jLjELMAkGA1UEBhMCVVMwHhcN\n" ++
  "MTQwNDMwMTgxOTA2WhcNMzkwNDMwMTgxOTA2WjBnMRswGQYDVQQDDBJBcHBsZSBS\n" ++
  "b290IENBIC0gRzMxJjAkBgNVBAsMHUFwcGxlIENlcnRpZmljYXRpb24gQXV0aG9y\n" ++
  "aXR5MRMwEQYDVQQKDApBcHBsZSBJbmMuMQswCQYDVQQGEwJVUzB2MBAGByqGSM49\n" ++
  "AgEGBSuBBAAiA2IABJjpLz1AcqTtkyJygRMc3RCV8cWjTnHcFBbZDuWmBSp3ZHtf\n" ++
  "TjjTuxxEtX/1H7YyYl3J6YRbTzBPEVoA/VhYDKX1DyxNB0cTddqXl5dvMVztK517\n" ++
  "IDvYuVTZXpmkOlEKMaNCMEAwHQYDVR0OBBYEFLuw3qFYM4iapIqZ3r6966/ayySr\n" ++
  "MA8GA1UdEwEB/wQFMAMBAf8wDgYDVR0PAQH/BAQDAgEGMAoGCCqGSM49BAMDA2gA\n" ++
  "MGUCMQCD6cHEFl4aXTQY2e3v9GwOAEZLuN+yRhHFD/3meoyhpmvOwgPUnPWTxnS4\n" ++
  "at+qIxUCMG1mihDK1A3UT82NQz60imOlM27jbdoXt2QfyFMm+YhidDkLF1vLUagM\n" ++
  "6BgD56KyKA==\n" ++
  "-----END CERTIFICATE-----\n"

/-- Lines 85 to 98 of `DecodeCert`: from the header pointer that `json.Unmarshal` left to the
parsed certificate.  Reading `header.X5C` through a nil pointer panics. -/
def certFromHeader (L : Libs) (header : Option Header) (index : Int) :
    Run (Except GoError Certificate) :=
  match header with
  | none => .panic "invalid memory address or nil pointer dereference"
  | some h =>
    if (h.X5C.length : Int) < index then .ret (.error (.text "invalid index"))
    else
      match goIndex h.X5C index with
      | .panic msg => .panic msg
      | .ret entry =>
        match StdEncoding.DecodeString entry with
        | .error e => .ret (.error e)
        | .ok certBytes =>
          match L.ParseCertificate certBytes with
          | .error e => .ret (.error e)
          | .ok cert => .ret (.ok cert)

/-- The function `DecodeCert(payload, index)`. -/
def DecodeCert (L : Libs) (payload : Bytes) (index : Int) : Run (Except GoError Certificate) :=
  if index > 2 then .ret (.error (.text "invalid index"))
  else
    match goIndex (stringsSplit payload dot) 0 with
    | .panic msg => .panic msg
    | .ret segment =>
      match RawStdEncoding.DecodeString segment with
      | .error e => .ret (.error e)
      | .ok data =>
        match L.jsonUnmarshalHeader data with
        | .error e => .ret (.error e)
        | .ok header => certFromHeader L header index

/-- The function `DecodePublicKey(payload)`. -/
def DecodePublicKey (L : Libs) (payload : Bytes) : Run (Except GoError ECDSAPublicKey) :=
  match DecodeCert L payload 0 with
  | .panic msg => .panic msg
  | .ret (.error e) => .ret (.error e)
  | .ret (.ok cert) =>
    match cert.PublicKey with
    | .ecdsa pk => .ret (.ok pk)
    | _ => .ret (.error (.text "appstore public key must be of type ecdsa.PublicKey"))

/-- The function `VerifyCert(rootCert, intermediateCert)`; `none` is a nil error. -/
def VerifyCert (L : Libs) (rootCert intermediateCert : Certificate) : Option GoError :=
  let roots : CertPool := L.certsFromPEM (bytesOf kRootPEM)
  if roots.isEmpty then some (.text "failed to parse root certificate")
  else
    let intermediates : CertPool := [intermediateCert]
    let opts : VerifyOptions := { Roots := roots, Intermediates := intermediates }
    match L.Verify rootCert opts with
    | .error e => some e
    | .ok _ => none

/-- The key function literal inside `DecodeClaims`: it ignores the token and returns
`DecodePublicKey(payload)` as an `interface{}` value. -/
def keyFunc (L : Libs) (payload : Bytes) (_token : Token) : Run (Except GoError PublicKey) :=
  match DecodePublicKey L payload with
  | .panic msg => .panic msg
  | .ret (.error e) => .ret (.error e)
  | .ret (.ok pk) => .ret (.ok (.ecdsa pk))

/-- The function `DecodeClaims(payload, claims)`.  The result pairs the state in which the call
leaves the caller's claims target with the returned error (`none` is nil). -/
def DecodeClaims {C : Type} (L : Libs) (J : JwtLib C) (payload : Bytes) (claims : C) :
    Run (C × Option GoError) :=
  match DecodeCert L payload 2 with
  | .panic msg => .panic msg
  | .ret (.error e) => .ret (claims, some e)
  | .ret (.ok rootCert) =>
    match DecodeCert L payload 1 with
    | .panic msg => .panic msg
    | .ret (.error e) => .ret (claims, some e)
    | .ret (.ok intermediateCert) =>
      match VerifyCert L rootCert intermediateCert with
      | some e => .ret (claims, some e)
      | none =>
        match J.ParseWithClaims payload claims (keyFunc L payload) with
        | .panic msg => .panic msg
        | .ret (claims1, .error e) => .ret (claims1, some e)
        | .ret (claims1, .ok _) => .ret (claims1, none)

/-! ## `apple/transaction_type.go` -/

/-- The embedded struct `jwt.RegisteredClaims`; a nil `*NumericDate` is `none`. -/
structure RegisteredClaims where
  Issuer : String
  Subject : String
  Audience : List String
  ExpiresAt : Option Int
  NotBefore : Option Int
  IssuedAt : Option Int
  ID : String
  deriving DecidableEq, Repr

/-- The struct `TransactionItem`. -/
structure TransactionItem where
  Registered : RegisteredClaims
  TransactionId : String
  OriginalTransactionId : String
  WebOrderLineItemId : String
  BundleId : String
  ProductId : String
  SubscriptionGroupIdentifier : String
  PurchaseDate : Int
  OriginalPurchaseDate : Int
  ExpiresDate : Int
  Quantity : Int
  /-- The field `Type` (a reserved word here). -/
  Type_ : String
  InAppOwnershipType : String
  SignedDate : Int
  OfferType : Int
  Environment : String
  RevocationReason : Int
  RevocationDate : Int
  deriving DecidableEq, Repr

/-- The composite literal `TransactionItem{}`: every field has its zero value. -/
def TransactionItem.zero : TransactionItem :=
  { Registered := ⟨"", "", [], none, none, none, ""⟩
    TransactionId := "", OriginalTransactionId := "", WebOrderLineItemId := ""
    BundleId := "", ProductId := "", SubscriptionGroupIdentifier := ""
    PurchaseDate := 0, OriginalPurchaseDate := 0, ExpiresDate := 0, Quantity := 0
    Type_ := "", InAppOwnershipType := "", SignedDate := 0, OfferType := 0
    Environment := "", RevocationReason := 0, RevocationDate := 0 }

/-- The method `SignedTransaction.DecodeSignedTransaction`: the returned pair of
`*TransactionItem` (`none` is nil) and `error` (`none` is nil). -/
def DecodeSignedTransaction (L : Libs) (J : JwtLib TransactionItem) (s : Bytes) :
    Run (Option TransactionItem × Option GoError) :=
  if s = [] then .ret (none, none)
  else
    match DecodeClaims L J s TransactionItem.zero with
    | .panic msg => .panic msg
    | .ret (_, some e) => .ret (none, some e)
    | .ret (item, none) => .ret (some item, none)

/-! ## A concrete instance of the libraries

The general theorems below quantify over `Libs` and `JwtLib`.  To run the pipeline on concrete
tokens, `sampleLibs` and `sampleJwt` give the library entry points small deterministic
stand-ins: a three-field certificate format, chain validation by issuer name, a table of JSON
documents and a one-byte checksum as signature. -/

/-- Sample DER: the five bytes `0x30, subject, issuer, key family, key` are a certificate;
key family `1` is ECDSA and `2` is RSA.  Anything else is malformed. -/
def sampleParseCertificate (der : Bytes) : Except GoError Certificate :=
  match der with
  | [tag, subject, issuer, family, key] =>
    if tag = 48 then
      .ok { Raw := der, RawSubject := [subject], RawIssuer := [issuer]
            PublicKey :=
              if family = 1 then .ecdsa ⟨"P-256", key.toNat, key.toNat⟩
              else if family = 2 then .rsa key.toNat 65537
              else .unknown }
    else .error (.library "x509" "malformed certificate")
  | _ => .error (.library "x509" "malformed certificate")

/-- The sample trust anchor: self-issued (subject 1, issuer 1), ECDSA key. -/
def sampleRootCert : Certificate :=
  { Raw := [48, 1, 1, 1, 7], RawSubject := [1], RawIssuer := [1]
    PublicKey := .ecdsa ⟨"P-256", 7, 7⟩ }

/-- A sample intermediate issued by the trust anchor (subject 2, issuer 1). -/
def sampleIntermediateCert : Certificate :=
  { Raw := [48, 2, 1, 1, 8], RawSubject := [2], RawIssuer := [1]
    PublicKey := .ecdsa ⟨"P-256", 8, 8⟩ }

/-- A self-issued certificate unrelated to the trust anchor (subject 66, issuer 66). -/
def rogueCert : Certificate :=
  { Raw := [48, 66, 66, 1, 5], RawSubject := [66], RawIssuer := [66]
    PublicKey := .ecdsa ⟨"P-256", 5, 5⟩ }

/-- Sample PEM decoding: the pinned constant holds the sample trust anchor; no other text
holds a certificate. -/
def sampleCertsFromPEM (pem : Bytes) : List Certificate :=
  if pem = bytesOf kRootPEM then [sampleRootCert] else []

/-- Sample path validation of `c`: `c` is itself a root, or a root issued it, or an
intermediate issued it that a root issued. -/
def sampleVerify (c : Certificate) (opts : VerifyOptions) :
    Except GoError (List (List Certificate)) :=
  if opts.Roots.contains c then .ok [[c]]
  else
    match opts.Roots.find? (fun r => r.RawSubject = c.RawIssuer) with
    | some r => .ok [[c, r]]
    | none =>
      match opts.Intermediates.find? (fun i => i.RawSubject = c.RawIssuer) with
      | none => .error (.library "x509" "certificate signed by unknown authority")
      | some i =>
        match opts.Roots.find? (fun r => r.RawSubject = i.RawIssuer) with
        | some r => .ok [[c, i, r]]
        | none => .error (.library "x509" "certificate signed by unknown authority")

/-- Header text with a full chain: leaf (subject 3, issued by 2), intermediate (subject 2,
issued by 1) and the trust anchor, each as padded standard base64 of its sample DER. -/
def headerFullChain : Bytes :=
  bytesOf "\x7b\"alg\":\"ES256\",\"x5c\":[\"MAMCAQk=\",\"MAIBAQg=\",\"MAEBAQc=\"]\x7d"

/-- Header text whose chain stops after the leaf and the intermediate. -/
def headerTwoCerts : Bytes :=
  bytesOf "\x7b\"alg\":\"ES256\",\"x5c\":[\"MAMCAQk=\",\"MAIBAQg=\"]\x7d"

/-- Header text with an empty chain. -/
def headerNoCerts : Bytes :=
  bytesOf "\x7b\"alg\":\"ES256\",\"x5c\":[]\x7d"

/-- Header text whose leaf is an RSA certificate. -/
def headerRsaLeaf : Bytes :=
  bytesOf "\x7b\"alg\":\"ES256\",\"x5c\":[\"MAMCAgk=\",\"MAIBAQg=\",\"MAEBAQc=\"]\x7d"

/-- Header text whose second entry is not base64 and whose third is not a certificate. -/
def headerBadEntries : Bytes :=
  bytesOf "\x7b\"alg\":\"ES256\",\"x5c\":[\"MAMCAQk=\",\"!!!!\",\"AAAA\"]\x7d"

/-- Sample `json.Unmarshal` into a nil `*Header`.  It agrees with `encoding/json` on the
documents it lists: the literal `null` leaves the pointer nil and reports no error, and the
header texts above give their header.  Every other input is reported as an error. -/
def sampleJsonUnmarshalHeader (data : Bytes) : Except GoError (Option Header) :=
  if data = bytesOf "null" then .ok none
  else if data = headerFullChain then
    .ok (some ⟨bytesOf "ES256", [bytesOf "MAMCAQk=", bytesOf "MAIBAQg=", bytesOf "MAEBAQc="]⟩)
  else if data = headerTwoCerts then
    .ok (some ⟨bytesOf "ES256", [bytesOf "MAMCAQk=", bytesOf "MAIBAQg="]⟩)
  else if data = headerNoCerts then .ok (some ⟨bytesOf "ES256", []⟩)
  else if data = headerRsaLeaf then
    .ok (some ⟨bytesOf "ES256", [bytesOf "MAMCAgk=", bytesOf "MAIBAQg=", bytesOf "MAEBAQc="]⟩)
  else if data = headerBadEntries then
    .ok (some ⟨bytesOf "ES256", [bytesOf "MAMCAQk=", bytesOf "!!!!", bytesOf "AAAA"]⟩)
  else .error (.library "json" "cannot unmarshal into Go value of type internal.Header")

/-- The sample standard library. -/
def sampleLibs : Libs :=
  { jsonUnmarshalHeader := sampleJsonUnmarshalHeader
    ParseCertificate := sampleParseCertificate
    certsFromPEM := sampleCertsFromPEM
    Verify := sampleVerify }

/-- Claims text of the sample token. -/
def sampleClaimsText : Bytes :=
  bytesOf ("\x7b\"transactionId\":\"1000000123456789\",\"productId\":\"com.example.sub\"," ++
    "\"quantity\":1\x7d")

/-- Sample JSON decoding of the claims segment into a `TransactionItem`: the sample claims
text sets the three fields it names and keeps the others; other input is an error. -/
def sampleUnmarshalClaims (data : Bytes) (claims : TransactionItem) :
    Except GoError TransactionItem :=
  if data = sampleClaimsText then
    .ok { claims with
          TransactionId := "1000000123456789", ProductId := "com.example.sub", Quantity := 1 }
  else .error (.library "jwt" "token is malformed: could not JSON decode claim")

/-- Sample signature check: the signature is the one byte obtained by adding the bytes of the
signing input and the key's `X`, modulo 256. -/
def sampleSignatureOk (key : PublicKey) (signingInput signature : Bytes) : Bool :=
  match key with
  | .ecdsa pk =>
    signature = [UInt8.ofNat ((signingInput.foldl (fun n b => n + b.toNat) 0 + pk.X) % 256)]
  | _ => false

/-- Sample `jwt.ParseWithClaims`, in the order in which golang-jwt v5 works: split the token
into three segments, decode the header and then the claims segment into the caller's target,
decode the signature, obtain the key from the key function, check the signature. -/
def sampleParseWithClaims (tokenString : Bytes) (claims : TransactionItem)
    (keyFunc : Token → Run (Except GoError PublicKey)) :
    Run (TransactionItem × Except GoError Token) :=
  match stringsSplit tokenString dot with
  | [header, body, sig] =>
    match RawURLEncoding.DecodeString header with
    | .error _ =>
      .ret (claims, .error (.library "jwt" "token is malformed: could not base64 decode header"))
    | .ok _ =>
      match RawURLEncoding.DecodeString body with
      | .error _ =>
        .ret (claims, .error (.library "jwt" "token is malformed: could not base64 decode claim"))
      | .ok claimBytes =>
        match sampleUnmarshalClaims claimBytes claims with
        | .error e => .ret (claims, .error e)
        | .ok claims1 =>
          match RawURLEncoding.DecodeString sig with
          | .error _ =>
            .ret (claims1,
              .error (.library "jwt" "token is malformed: could not base64 decode signature"))
          | .ok signature =>
            match keyFunc ⟨tokenString, false⟩ with
            | .panic msg => .panic msg
            | .ret (.error _) =>
              .ret (claims1,
                .error (.library "jwt" "token is unverifiable: error while executing keyfunc"))
            | .ret (.ok key) =>
              if sampleSignatureOk key (header ++ dot :: body) signature then
                .ret (claims1, .ok ⟨tokenString, true⟩)
              else .ret (claims1, .error (.library "jwt" "token signature is invalid"))
  | _ =>
    .ret (claims,
      .error (.library "jwt" "token is malformed: token contains an invalid number of segments"))

/-- The sample token library for `TransactionItem` targets. -/
def sampleJwt : JwtLib TransactionItem := ⟨sampleParseWithClaims⟩

/-- A token with the full sample chain, the sample claims and a signature that verifies under
the leaf key. -/
def goodToken : Bytes :=
  bytesOf ("eyJhbGciOiJFUzI1NiIsIng1YyI6WyJNQU1DQVFrPSIsIk1BSUJBUWc9IiwiTUFFQkFRYz0iXX0" ++
    ".eyJ0cmFuc2FjdGlvbklkIjoiMTAwMDAwMDEyMzQ1Njc4OSIsInByb2R1Y3RJZCI6ImNvbS5leGFtcGxlLnN1YiIs" ++
    "InF1YW50aXR5IjoxfQ.Eg")

/-- The token `goodToken` with its signature byte zeroed. -/
def tamperedToken : Bytes :=
  bytesOf ("eyJhbGciOiJFUzI1NiIsIng1YyI6WyJNQU1DQVFrPSIsIk1BSUJBUWc9IiwiTUFFQkFRYz0iXX0" ++
    ".eyJ0cmFuc2FjdGlvbklkIjoiMTAwMDAwMDEyMzQ1Njc4OSIsInByb2R1Y3RJZCI6ImNvbS5leGFtcGxlLnN1YiIs" ++
    "InF1YW50aXR5IjoxfQ.AA")

/-- A token whose header is `headerTwoCerts`. -/
def twoCertToken : Bytes :=
  bytesOf "eyJhbGciOiJFUzI1NiIsIng1YyI6WyJNQU1DQVFrPSIsIk1BSUJBUWc9Il19.e30.AA"

/-- A token whose header is `headerNoCerts`. -/
def noCertToken : Bytes :=
  bytesOf "eyJhbGciOiJFUzI1NiIsIng1YyI6W119.e30.AA"

/-- A token whose header is the JSON literal `null`. -/
def nullHeaderToken : Bytes :=
  bytesOf "bnVsbA.e30.AA"

/-- A token whose header is `headerRsaLeaf`. -/
def rsaLeafToken : Bytes :=
  bytesOf ("eyJhbGciOiJFUzI1NiIsIng1YyI6WyJNQU1DQWdrPSIsIk1BSUJBUWc9IiwiTUFFQkFRYz0iXX0" ++
    ".e30.AA")

/-- A token whose header is `headerBadEntries`. -/
def badEntriesToken : Bytes :=
  bytesOf "eyJhbGciOiJFUzI1NiIsIng1YyI6WyJNQU1DQVFrPSIsIiEhISEiLCJBQUFBIl19.e30.AA"

/-- Header text whose unpadded URL-safe base64, `eyJhbGciOiI_In0`, contains `_`. -/
def headerQuestionMark : Bytes :=
  bytesOf "\x7b\"alg\":\"?\"\x7d"

/-- A token whose header segment is the unpadded URL-safe base64 of `headerQuestionMark`. -/
def urlHeaderToken : Bytes :=
  bytesOf "eyJhbGciOiI_In0.e30.AA"

/-- Header text whose unpadded URL-safe base64, `eyJhbGciOiI-In0`, contains `-`. -/
def headerGreaterThan : Bytes :=
  bytesOf "\x7b\"alg\":\">\"\x7d"

/-- A token whose header segment is the unpadded URL-safe base64 of `headerGreaterThan`. -/
def minusHeaderToken : Bytes :=
  bytesOf "eyJhbGciOiI-In0.e30.AA"

/-- The populated claims of the sample token. -/
def sampleItem : TransactionItem :=
  { TransactionItem.zero with
    TransactionId := "1000000123456789", ProductId := "com.example.sub", Quantity := 1 }

set_option maxRecDepth 100000

/-! ## Facts about the base64 model -/

theorem toNat_lt_256 (a : UInt8) : a.toNat < 256 := a.val.isLt

theorem ofNat_toNat (a : UInt8) : UInt8.ofNat a.toNat = a := by
  cases a with
  | mk v =>
    apply congrArg UInt8.mk
    simp [UInt8.toNat]

/-- Every six-bit value decodes, under the standard alphabet, to itself. -/
theorem std_decode_encode (v : Nat) (hv : v < 64) :
    alphabetIndex encodeStd (encodeStd.getD v 0) 0 = v := by
  interval_cases v <;> decide

theorem quantumBytes_four (acc : Nat) (a b c : UInt8)
    (h : acc = a.toNat * 65536 + b.toNat * 256 + c.toNat) :
    quantumBytes 4 acc = [a, b, c] := by
  have ha := toNat_lt_256 a
  have hb := toNat_lt_256 b
  have hc := toNat_lt_256 c
  have e1 : acc / 65536 % 256 = a.toNat := by omega
  have e2 : acc / 256 % 256 = b.toNat := by omega
  have e3 : acc % 256 = c.toNat := by omega
  simp [quantumBytes, e1, e2, e3, ofNat_toNat]

theorem quantumBytes_three (acc : Nat) (a b : UInt8)
    (h : acc * 64 = a.toNat * 65536 + b.toNat * 256) :
    quantumBytes 3 acc = [a, b] := by
  have ha := toNat_lt_256 a
  have hb := toNat_lt_256 b
  have e1 : acc * 64 / 65536 % 256 = a.toNat := by omega
  have e2 : acc * 64 / 256 % 256 = b.toNat := by omega
  simp [quantumBytes, e1, e2, ofNat_toNat]

theorem quantumBytes_two (acc : Nat) (a : UInt8) (h : acc * 4096 = a.toNat * 65536) :
    quantumBytes 2 acc = [a] := by
  have ha := toNat_lt_256 a
  have e1 : acc * 4096 / 65536 % 256 = a.toNat := by omega
  simp [quantumBytes, e1, ofNat_toNat]

/-- One decoding step on a byte of the standard alphabet. -/
theorem decodeLoop_std_char (pad : Option UInt8) (v : Nat) (hv : v < 64) (rest : Bytes)
    (si j acc : Nat) :
    decodeLoop ⟨encodeStd, pad⟩ (encodeStd.getD v 0 :: rest) si j acc =
      if j = 3 then
        match decodeLoop ⟨encodeStd, pad⟩ rest (si + 1) 0 0 with
        | .error e => .error e
        | .ok tail => .ok (quantumBytes 4 (acc * 64 + v) ++ tail)
      else decodeLoop ⟨encodeStd, pad⟩ rest (si + 1) (j + 1) (acc * 64 + v) := by
  have hne : v ≠ 255 := by omega
  rw [decodeLoop]
  simp only [Encoding.decodeMap, std_decode_encode v hv]
  rw [if_pos hne]

/-- Decoding inverts encoding for the unpadded standard encoding, from any offset. -/
theorem rawStd_roundtrip_from (n : Nat) :
    ∀ (h : Bytes), h.length ≤ n → ∀ si : Nat,
      decodeLoop RawStdEncoding (RawStdEncoding.EncodeToString h) si 0 0 = .ok h := by
  induction n with
  | zero =>
    intro h hlen si
    have : h = [] := List.length_eq_zero.mp (by omega)
    subst this
    simp [Encoding.EncodeToString, decodeLoop]
  | succ n ih =>
    intro h hlen si
    match h, hlen with
    | [], _ => simp [Encoding.EncodeToString, decodeLoop]
    | [a], _ =>
      have ha := toNat_lt_256 a
      simp only [Encoding.EncodeToString, RawStdEncoding, Encoding.encodeChar, List.append_nil]
      rw [decodeLoop_std_char none _ (Nat.mod_lt _ (by decide)),
        if_neg (by decide), decodeLoop_std_char none _ (Nat.mod_lt _ (by decide)),
        if_neg (by decide)]
      simp only [decodeLoop]
      simp
      exact quantumBytes_two _ a (by omega)
    | [a, b], _ =>
      have ha := toNat_lt_256 a
      have hb := toNat_lt_256 b
      simp only [Encoding.EncodeToString, RawStdEncoding, Encoding.encodeChar, List.append_nil]
      rw [decodeLoop_std_char none _ (Nat.mod_lt _ (by decide)),
        if_neg (by decide), decodeLoop_std_char none _ (Nat.mod_lt _ (by decide)),
        if_neg (by decide), decodeLoop_std_char none _ (Nat.mod_lt _ (by decide)),
        if_neg (by decide)]
      simp only [decodeLoop]
      simp
      exact quantumBytes_three _ a b (by omega)
    | a :: b :: c :: rest, hlen =>
      have ha := toNat_lt_256 a
      have hb := toNat_lt_256 b
      have hc := toNat_lt_256 c
      have hrest : rest.length ≤ n := by simp at hlen; omega
      have ih1 := ih rest hrest (si + 1 + 1 + 1 + 1)
      simp only [RawStdEncoding] at ih1
      simp only [Encoding.EncodeToString, RawStdEncoding, Encoding.encodeChar]
      rw [decodeLoop_std_char none _ (Nat.mod_lt _ (by decide)),
        if_neg (by decide), decodeLoop_std_char none _ (Nat.mod_lt _ (by decide)),
        if_neg (by decide), decodeLoop_std_char none _ (Nat.mod_lt _ (by decide)),
        if_neg (by decide), decodeLoop_std_char none _ (Nat.mod_lt _ (by decide)),
        if_pos rfl, ih1]
      simp only [Except.ok.injEq]
      rw [quantumBytes_four _ a b c (by omega)]
      rfl

/-- The unpadded standard decoder inverts the unpadded standard encoder. -/
theorem rawStd_roundtrip (h : Bytes) :
    RawStdEncoding.DecodeString (RawStdEncoding.EncodeToString h) = .ok h :=
  rawStd_roundtrip_from h.length h (Nat.le_refl _) 0

/-- Outside the characters `-` and `_`, the URL-safe alphabet is the standard alphabet. -/
theorem url_char_eq_std (v : Nat) (hv : v < 64) (h1 : encodeURL.getD v 0 ≠ 45)
    (h2 : encodeURL.getD v 0 ≠ 95) : encodeURL.getD v 0 = encodeStd.getD v 0 := by
  interval_cases v <;> first | decide | exact absurd (by decide) h1 | exact absurd (by decide) h2

/-- An unpadded URL-safe encoding without `-` and `_` is the unpadded standard encoding. -/
theorem rawURL_eq_rawStd_from (n : Nat) :
    ∀ (h : Bytes), h.length ≤ n →
      (∀ c ∈ RawURLEncoding.EncodeToString h, c ≠ 45 ∧ c ≠ 95) →
      RawURLEncoding.EncodeToString h = RawStdEncoding.EncodeToString h := by
  induction n with
  | zero =>
    intro h hlen _
    have : h = [] := List.length_eq_zero.mp (by omega)
    subst this
    simp [Encoding.EncodeToString]
  | succ n ih =>
    intro h hlen hmem
    match h, hlen, hmem with
    | [], _, _ => simp [Encoding.EncodeToString]
    | [a], _, hmem =>
      simp only [Encoding.EncodeToString, RawURLEncoding, RawStdEncoding, Encoding.encodeChar,
        List.append_nil, List.forall_mem_cons] at hmem ⊢
      obtain ⟨h0, h1, _⟩ := hmem
      rw [url_char_eq_std _ (Nat.mod_lt _ (by decide)) h0.1 h0.2,
        url_char_eq_std _ (Nat.mod_lt _ (by decide)) h1.1 h1.2]
    | [a, b], _, hmem =>
      simp only [Encoding.EncodeToString, RawURLEncoding, RawStdEncoding, Encoding.encodeChar,
        List.append_nil, List.forall_mem_cons] at hmem ⊢
      obtain ⟨h0, h1, h2, _⟩ := hmem
      rw [url_char_eq_std _ (Nat.mod_lt _ (by decide)) h0.1 h0.2,
        url_char_eq_std _ (Nat.mod_lt _ (by decide)) h1.1 h1.2,
        url_char_eq_std _ (Nat.mod_lt _ (by decide)) h2.1 h2.2]
    | a :: b :: c :: rest, hlen, hmem =>
      have hrest : rest.length ≤ n := by simp at hlen; omega
      have ih1 := ih rest hrest
      simp only [RawURLEncoding, RawStdEncoding] at ih1
      simp only [Encoding.EncodeToString, RawURLEncoding, RawStdEncoding, Encoding.encodeChar,
        List.forall_mem_cons] at hmem ⊢
      obtain ⟨h0, h1, h2, h3, ht⟩ := hmem
      rw [url_char_eq_std _ (Nat.mod_lt _ (by decide)) h0.1 h0.2,
        url_char_eq_std _ (Nat.mod_lt _ (by decide)) h1.1 h1.2,
        url_char_eq_std _ (Nat.mod_lt _ (by decide)) h2.1 h2.2,
        url_char_eq_std _ (Nat.mod_lt _ (by decide)) h3.1 h3.2, ih1 ht]

/-! ## Facts about `DecodeCert` -/

theorem goIndex_zero_of_head {α : Type} (xs : List α) (x : α) (h : xs.head? = some x) :
    goIndex xs 0 = .ret x := by
  cases xs with
  | nil => simp at h
  | cons y ys =>
    simp only [List.head?_cons, Option.some.injEq] at h
    subst h
    simp [goIndex]

theorem goIndex_natCast {α : Type} (xs : List α) (i : Nat) (hi : i < xs.length) :
    goIndex xs (i : Int) = .ret (xs.get ⟨i, hi⟩) := by
  have hn : ¬ ((i : Int) < 0) := by omega
  simp only [goIndex, if_neg hn, Int.toNat_ofNat, List.get?_eq_get hi]

theorem goIndex_length {α : Type} (xs : List α) :
    goIndex xs (xs.length : Int) = .panic "index out of range" := by
  have hn : ¬ ((xs.length : Int) < 0) := by omega
  simp only [goIndex, if_neg hn, Int.toNat_ofNat, List.get?_eq_none.mpr (Nat.le_refl _)]

/-- Once the first segment decodes to `data`, `DecodeCert` hands exactly `data` to
`json.Unmarshal` and continues from the header it gets back. -/
theorem DecodeCert_of_segment (L : Libs) (payload segment data : Bytes) (index : Int)
    (hidx : index ≤ 2) (hseg : (stringsSplit payload dot).head? = some segment)
    (hdec : RawStdEncoding.DecodeString segment = .ok data) :
    DecodeCert L payload index =
      match L.jsonUnmarshalHeader data with
      | .error e => .ret (.error e)
      | .ok header => certFromHeader L header index := by
  have hn : ¬ (index > 2) := by omega
  simp only [DecodeCert, if_neg hn, goIndex_zero_of_head _ _ hseg, hdec]

/-- When the first segment does not decode, `DecodeCert` returns the decoding error. -/
theorem DecodeCert_of_segment_error (L : Libs) (payload segment : Bytes) (index : Int)
    (e : GoError) (hidx : index ≤ 2)
    (hseg : (stringsSplit payload dot).head? = some segment)
    (hdec : RawStdEncoding.DecodeString segment = .error e) :
    DecodeCert L payload index = .ret (.error e) := by
  have hn : ¬ (index > 2) := by omega
  simp only [DecodeCert, if_neg hn, goIndex_zero_of_head _ _ hseg, hdec]

/-- A byte outside the alphabet that is not a newline stops the unpadded decoder with
`CorruptInputError` at the offset of that byte. -/
theorem decodeLoop_raw_bad_byte (alphabet : Bytes) (c : UInt8) (rest : Bytes) (si j acc : Nat)
    (hmap : alphabetIndex alphabet c 0 = 255) (hnl : isNewline c = false) :
    decodeLoop ⟨alphabet, none⟩ (c :: rest) si j acc = .error (.corruptInput si) := by
  rw [decodeLoop]
  simp only [Encoding.decodeMap, hmap, ne_eq, not_true_eq_false, if_false, hnl,
    Bool.false_eq_true]

/-- The unpadded standard decoder rejects every input that contains `-` or `_`. -/
theorem decodeLoop_rejects_url_bytes :
    ∀ (src : Bytes), ((45 : UInt8) ∈ src ∨ (95 : UInt8) ∈ src) → ∀ si j acc : Nat,
      ∃ k, decodeLoop RawStdEncoding src si j acc = .error (.corruptInput k) := by
  intro src
  induction src with
  | nil => intro h; simp at h
  | cons c rest ih =>
    intro h si j acc
    by_cases hc : c = 45 ∨ c = 95
    · refine ⟨si, ?_⟩
      rcases hc with hc | hc
      · subst hc
        exact decodeLoop_raw_bad_byte encodeStd 45 rest si j acc (by decide) (by decide)
      · subst hc
        exact decodeLoop_raw_bad_byte encodeStd 95 rest si j acc (by decide) (by decide)
    · have hrest : (45 : UInt8) ∈ rest ∨ (95 : UInt8) ∈ rest := by
        rcases h with h | h
        · rcases List.mem_cons.mp h with h1 | h1
          · exact absurd (Or.inl h1.symm) hc
          · exact Or.inl h1
        · rcases List.mem_cons.mp h with h1 | h1
          · exact absurd (Or.inr h1.symm) hc
          · exact Or.inr h1
      have ih1 := ih hrest
      simp only [RawStdEncoding] at ih1 ⊢
      rw [decodeLoop]
      by_cases hout : Encoding.decodeMap ⟨encodeStd, none⟩ c ≠ 255
      · by_cases hj : j = 3
        · obtain ⟨k, hk⟩ := ih1 (si + 1) 0 0
          exact ⟨k, by simp only [if_pos hout, if_pos hj, hk]⟩
        · obtain ⟨k, hk⟩ := ih1 (si + 1) (j + 1)
            (acc * 64 + Encoding.decodeMap ⟨encodeStd, none⟩ c)
          exact ⟨k, by simp only [if_pos hout, if_neg hj, hk]⟩
      · by_cases hnl : isNewline c = true
        · obtain ⟨k, hk⟩ := ih1 (si + 1) j acc
          exact ⟨k, by simp only [if_neg hout, if_pos hnl, hk]⟩
        · exact ⟨si, by simp only [if_neg hout, if_neg hnl]⟩

/-! ## Claims about `DecodeCert` -/

/-- C5: when the header decodes to a chain of exactly `index` entries (the boundary
`index = n`), `DecodeCert` does not return the "invalid index" error: the guard
`len(header.X5C) < index` lets the index through and the lookup `header.X5C[index]` panics
with an out-of-range index. -/
theorem DecodeCert_boundary_index_panics (L : Libs) (payload segment data : Bytes)
    (header : Header) (index : Int)
    (hseg : (stringsSplit payload dot).head? = some segment)
    (hdec : RawStdEncoding.DecodeString segment = .ok data)
    (hjson : L.jsonUnmarshalHeader data = .ok (some header))
    (hidx : index ≤ 2) (hlen : index = (header.X5C.length : Int)) :
    DecodeCert L payload index = .panic "index out of range" := by
  rw [DecodeCert_of_segment L payload segment data index hidx hseg hdec, hjson]
  subst hlen
  have hn : ¬ ((header.X5C.length : Int) < (header.X5C.length : Int)) := by omega
  simp only [certFromHeader, if_neg hn, goIndex_length]

/-- C5, at concrete inputs: a header with an empty chain and index 0, and a header with two
entries and index 2, both panic. -/
theorem DecodeCert_boundary_index_panics_witness :
    DecodeCert sampleLibs noCertToken 0 = .panic "index out of range" ∧
    DecodeCert sampleLibs twoCertToken 2 = .panic "index out of range" :=
  ⟨DecodeCert_boundary_index_panics sampleLibs noCertToken
      (bytesOf "eyJhbGciOiJFUzI1NiIsIng1YyI6W119") headerNoCerts
      ⟨bytesOf "ES256", []⟩ 0 (by decide) (by decide) (by decide) (by decide) (by decide),
   DecodeCert_boundary_index_panics sampleLibs twoCertToken
      (bytesOf "eyJhbGciOiJFUzI1NiIsIng1YyI6WyJNQU1DQVFrPSIsIk1BSUJBUWc9Il19") headerTwoCerts
      ⟨bytesOf "ES256", [bytesOf "MAMCAQk=", bytesOf "MAIBAQg="]⟩ 2
      (by decide) (by decide) (by decide) (by decide) (by decide)⟩

/-- The part of C5 the code does implement: a chain with fewer than `index` entries gives the
"invalid index" error. -/
theorem DecodeCert_short_chain (L : Libs) (payload segment data : Bytes)
    (header : Header) (index : Int)
    (hseg : (stringsSplit payload dot).head? = some segment)
    (hdec : RawStdEncoding.DecodeString segment = .ok data)
    (hjson : L.jsonUnmarshalHeader data = .ok (some header))
    (hidx : index ≤ 2) (hlen : (header.X5C.length : Int) < index) :
    DecodeCert L payload index = .ret (.error (.text "invalid index")) := by
  rw [DecodeCert_of_segment L payload segment data index hidx hseg hdec, hjson]
  simp only [certFromHeader, if_pos hlen]

/-- C6: for every payload and every index of 3 or more, `DecodeCert` returns the
"invalid index" error; the result is the same for every payload and every behaviour of the
libraries, since nothing of the payload is decoded before the index test. -/
theorem DecodeCert_index_above_two (L : Libs) (payload : Bytes) (index : Int)
    (h : 3 ≤ index) :
    DecodeCert L payload index = .ret (.error (.text "invalid index")) ∧
    ∀ (L1 : Libs) (payload1 : Bytes), DecodeCert L1 payload1 index = DecodeCert L payload index := by
  have hgt : index > 2 := by omega
  refine ⟨by simp only [DecodeCert, if_pos hgt], ?_⟩
  intro L1 payload1
  simp only [DecodeCert, if_pos hgt]

/-- C6, at concrete inputs: index 3 on a well-formed token and on the empty string. -/
theorem DecodeCert_index_above_two_witness :
    DecodeCert sampleLibs goodToken 3 = .ret (.error (.text "invalid index")) ∧
    DecodeCert sampleLibs [] 3 = DecodeCert sampleLibs goodToken 3 :=
  ⟨(DecodeCert_index_above_two sampleLibs goodToken 3 (by decide)).1,
   (DecodeCert_index_above_two sampleLibs goodToken 3 (by decide)).2 sampleLibs []⟩

/-- C7: when the first segment of the payload is the unpadded standard base64 of a text that
`json.Unmarshal` turns into a header, and `i ≤ 2` is a position of its chain, `DecodeCert`
is the X.509 parse of the padded standard base64 decoding of the chain entry at `i`: the
certificate when both steps succeed, otherwise the base64 error or the parse error of that
entry. -/
theorem DecodeCert_chain_entry (L : Libs) (payload data : Bytes) (header : Header) (i : Nat)
    (hseg : (stringsSplit payload dot).head? = some (RawStdEncoding.EncodeToString data))
    (hjson : L.jsonUnmarshalHeader data = .ok (some header))
    (hi2 : i ≤ 2) (hi : i < header.X5C.length) :
    DecodeCert L payload (i : Int) =
      match StdEncoding.DecodeString (header.X5C.get ⟨i, hi⟩) with
      | .error e => .ret (.error e)
      | .ok der =>
        match L.ParseCertificate der with
        | .error e => .ret (.error e)
        | .ok cert => .ret (.ok cert) := by
  have hidx : (i : Int) ≤ 2 := by omega
  have hn : ¬ ((header.X5C.length : Int) < (i : Int)) := by omega
  rw [DecodeCert_of_segment L payload _ data (i : Int) hidx hseg (rawStd_roundtrip data), hjson]
  simp only [certFromHeader, if_neg hn, goIndex_natCast _ i hi]

/-- C7, at concrete inputs: position 1 of the sample chain is the sample intermediate;
in a chain whose entry 1 is not base64 and whose entry 2 is not a certificate, position 1
gives the base64 error and position 2 the parse error. -/
theorem DecodeCert_chain_entry_witness :
    DecodeCert sampleLibs goodToken 1 = .ret (.ok sampleIntermediateCert) ∧
    DecodeCert sampleLibs badEntriesToken 1 = .ret (.error (.corruptInput 0)) ∧
    DecodeCert sampleLibs badEntriesToken 2 =
      .ret (.error (.library "x509" "malformed certificate")) :=
  ⟨(DecodeCert_chain_entry sampleLibs goodToken headerFullChain
      ⟨bytesOf "ES256", [bytesOf "MAMCAQk=", bytesOf "MAIBAQg=", bytesOf "MAEBAQc="]⟩ 1
      (by decide) (by decide) (by decide) (by decide)).trans (by decide),
   (DecodeCert_chain_entry sampleLibs badEntriesToken headerBadEntries
      ⟨bytesOf "ES256", [bytesOf "MAMCAQk=", bytesOf "!!!!", bytesOf "AAAA"]⟩ 1
      (by decide) (by decide) (by decide) (by decide)).trans (by decide),
   (DecodeCert_chain_entry sampleLibs badEntriesToken headerBadEntries
      ⟨bytesOf "ES256", [bytesOf "MAMCAQk=", bytesOf "!!!!", bytesOf "AAAA"]⟩ 2
      (by decide) (by decide) (by decide) (by decide)).trans (by decide)⟩

/-- C10: when the first segment is valid unpadded standard base64 of a text after which
`json.Unmarshal` reports no error and leaves the header pointer nil (the JSON literal
`null`), `DecodeCert` with an index of at most 2 returns no error: it reads `header.X5C`
through the nil pointer and panics. -/
theorem DecodeCert_nil_header_panics (L : Libs) (payload segment data : Bytes) (index : Int)
    (hseg : (stringsSplit payload dot).head? = some segment)
    (hdec : RawStdEncoding.DecodeString segment = .ok data)
    (hjson : L.jsonUnmarshalHeader data = .ok none)
    (hidx : index ≤ 2) :
    DecodeCert L payload index = .panic "invalid memory address or nil pointer dereference" := by
  rw [DecodeCert_of_segment L payload segment data index hidx hseg hdec, hjson]
  simp only [certFromHeader]

/-- C10, at a concrete input: the token whose header segment `bnVsbA` is the base64 of
`null`, at index 0. -/
theorem DecodeCert_nil_header_panics_witness :
    RawStdEncoding.DecodeString (bytesOf "bnVsbA") = .ok (bytesOf "null") ∧
    DecodeCert sampleLibs nullHeaderToken 0 =
      .panic "invalid memory address or nil pointer dereference" :=
  ⟨by decide,
   DecodeCert_nil_header_panics sampleLibs nullHeaderToken (bytesOf "bnVsbA") (bytesOf "null") 0
      (by decide) (by decide) (by decide) (by decide)⟩

/-! ## Claim about `DecodePublicKey` -/

/-- C9: `DecodePublicKey(payload)` returns a key exactly when `DecodeCert(payload, 0)`
succeeds with a certificate whose public key is an ECDSA key, and then it is that key; when
the extraction returns an error it returns that error unchanged; when the key is of another
family it returns the unsupported-key-type error. -/
theorem DecodePublicKey_spec (L : Libs) (payload : Bytes) :
    (∀ pk, DecodePublicKey L payload = .ret (.ok pk) ↔
      ∃ cert, DecodeCert L payload 0 = .ret (.ok cert) ∧ cert.PublicKey = .ecdsa pk) ∧
    (∀ e, DecodeCert L payload 0 = .ret (.error e) →
      DecodePublicKey L payload = .ret (.error e)) ∧
    (∀ cert, DecodeCert L payload 0 = .ret (.ok cert) →
      (∀ pk, cert.PublicKey ≠ .ecdsa pk) →
      DecodePublicKey L payload =
        .ret (.error (.text "appstore public key must be of type ecdsa.PublicKey"))) := by
  refine ⟨?_, ?_, ?_⟩
  · intro pk
    unfold DecodePublicKey
    cases hc : DecodeCert L payload 0 with
    | panic msg => simp
    | ret r =>
      cases r with
      | error e => simp
      | ok cert =>
        cases hk : cert.PublicKey <;> simp [hk]
  · intro e he
    simp [DecodePublicKey, he]
  · intro cert hc hk
    unfold DecodePublicKey
    rw [hc]
    cases hp : cert.PublicKey with
    | ecdsa pk => exact absurd hp (hk pk)
    | rsa N E => simp only [hp]
    | ed25519 key => simp only [hp]
    | unknown => simp only [hp]

/-- C9, at concrete inputs: the ECDSA leaf of the sample token, an RSA leaf, and a header
that fails to decode. -/
theorem DecodePublicKey_spec_witness :
    DecodePublicKey sampleLibs goodToken = .ret (.ok ⟨"P-256", 9, 9⟩) ∧
    DecodePublicKey sampleLibs rsaLeafToken =
      .ret (.error (.text "appstore public key must be of type ecdsa.PublicKey")) ∧
    DecodePublicKey sampleLibs (bytesOf "!") = .ret (.error (.corruptInput 0)) :=
  ⟨((DecodePublicKey_spec sampleLibs goodToken).1 ⟨"P-256", 9, 9⟩).2
      ⟨⟨[48, 3, 2, 1, 9], [3], [2], .ecdsa ⟨"P-256", 9, 9⟩⟩, by decide, rfl⟩,
   (DecodePublicKey_spec sampleLibs rsaLeafToken).2.2
      ⟨[48, 3, 2, 2, 9], [3], [2], .rsa 9 65537⟩ (by decide) (by intro pk h; cases h),
   (DecodePublicKey_spec sampleLibs (bytesOf "!")).2.1 (.corruptInput 0) (by decide)⟩

/-! ## Claim about the header encoding -/

/-- C8, as stated, fails: the header texts `headerQuestionMark` and `headerGreaterThan` have
the unpadded URL-safe base64 `eyJhbGciOiI_In0` and `eyJhbGciOiI-In0`; on a token with such a
first segment the header decoding step of `DecodeCert` fails with `CorruptInputError(11)`,
the offset of `_` or `-`. -/
theorem DecodeCert_rejects_base64url_header :
    RawURLEncoding.EncodeToString headerQuestionMark = bytesOf "eyJhbGciOiI_In0" ∧
    (stringsSplit urlHeaderToken dot).head? = some (bytesOf "eyJhbGciOiI_In0") ∧
    RawStdEncoding.DecodeString (bytesOf "eyJhbGciOiI_In0") = .error (.corruptInput 11) ∧
    DecodeCert sampleLibs urlHeaderToken 0 = .ret (.error (.corruptInput 11)) ∧
    RawURLEncoding.EncodeToString headerGreaterThan = bytesOf "eyJhbGciOiI-In0" ∧
    (stringsSplit minusHeaderToken dot).head? = some (bytesOf "eyJhbGciOiI-In0") ∧
    RawStdEncoding.DecodeString (bytesOf "eyJhbGciOiI-In0") = .error (.corruptInput 11) ∧
    DecodeCert sampleLibs minusHeaderToken 0 = .ret (.error (.corruptInput 11)) := by
  decide

/-- C8, amended: the header segment is decoded with unpadded standard base64.  For every
token, with `segment` its first segment and an index of at most 2:
when `segment` is the unpadded URL-safe base64 of a byte string `h` and contains neither `-`
nor `_`, the header decoding step recovers exactly `h`, and `DecodeCert` does not fail there,
hands `h` to `json.Unmarshal` and continues from its result;
when `segment` contains `-` or `_`, the header decoding step fails with a
`CorruptInputError` and `DecodeCert` returns that error. -/
theorem DecodeCert_header_base64 (L : Libs) (payload segment : Bytes) (index : Int)
    (hidx : index ≤ 2)
    (hseg : (stringsSplit payload dot).head? = some segment) :
    (∀ h : Bytes, segment = RawURLEncoding.EncodeToString h →
      (45 : UInt8) ∉ segment → (95 : UInt8) ∉ segment →
      RawStdEncoding.DecodeString segment = .ok h ∧
      DecodeCert L payload index =
        match L.jsonUnmarshalHeader h with
        | .error e => .ret (.error e)
        | .ok header => certFromHeader L header index) ∧
    (((45 : UInt8) ∈ segment ∨ (95 : UInt8) ∈ segment) →
      ∃ k, RawStdEncoding.DecodeString segment = .error (.corruptInput k) ∧
        DecodeCert L payload index = .ret (.error (.corruptInput k))) := by
  refine ⟨?_, ?_⟩
  · intro h hsegment hminus hunder
    subst hsegment
    have heq : RawURLEncoding.EncodeToString h = RawStdEncoding.EncodeToString h :=
      rawURL_eq_rawStd_from h.length h (Nat.le_refl _)
        (fun c hc => ⟨fun h45 => hminus (h45 ▸ hc), fun h95 => hunder (h95 ▸ hc)⟩)
    have hdec : RawStdEncoding.DecodeString (RawURLEncoding.EncodeToString h) = .ok h := by
      rw [heq]
      exact rawStd_roundtrip h
    exact ⟨hdec, DecodeCert_of_segment L payload _ h index hidx hseg hdec⟩
  · intro hbad
    obtain ⟨k, hk⟩ := decodeLoop_rejects_url_bytes segment hbad 0 0 0
    exact ⟨k, hk, DecodeCert_of_segment_error L payload segment index _ hidx hseg hk⟩

/-- C8 amended, at concrete inputs: the header of the sample token is recovered, and the
tokens whose header segment contains `_` or `-` are rejected with a `CorruptInputError`. -/
theorem DecodeCert_header_base64_witness :
    (RawStdEncoding.DecodeString (RawURLEncoding.EncodeToString headerFullChain) =
        .ok headerFullChain ∧
      DecodeCert sampleLibs goodToken 2 =
        match sampleLibs.jsonUnmarshalHeader headerFullChain with
        | .error e => .ret (.error e)
        | .ok header => certFromHeader sampleLibs header 2) ∧
    (∃ k, RawStdEncoding.DecodeString (bytesOf "eyJhbGciOiI_In0") = .error (.corruptInput k) ∧
      DecodeCert sampleLibs urlHeaderToken 0 = .ret (.error (.corruptInput k))) ∧
    (∃ k, RawStdEncoding.DecodeString (bytesOf "eyJhbGciOiI-In0") = .error (.corruptInput k) ∧
      DecodeCert sampleLibs minusHeaderToken 0 = .ret (.error (.corruptInput k))) :=
  ⟨(DecodeCert_header_base64 sampleLibs goodToken (RawURLEncoding.EncodeToString headerFullChain)
      2 (by decide) (by decide)).1 headerFullChain rfl (by decide) (by decide),
   (DecodeCert_header_base64 sampleLibs urlHeaderToken (bytesOf "eyJhbGciOiI_In0") 0
      (by decide) (by decide)).2 (by decide),
   (DecodeCert_header_base64 sampleLibs minusHeaderToken (bytesOf "eyJhbGciOiI-In0") 0
      (by decide) (by decide)).2 (by decide)⟩

/-! ## Claim about `VerifyCert` -/

/-- The certificate `VerifyCert` validates is its first argument: it succeeds exactly when the
pinned constant yields a trust pool and `rootCert.Verify` finds a chain, with the supplied
intermediate only offered as a possible link. -/
theorem VerifyCert_eq_none_iff (L : Libs) (rootCert intermediateCert : Certificate) :
    VerifyCert L rootCert intermediateCert = none ↔
      (L.certsFromPEM (bytesOf kRootPEM)).isEmpty = false ∧
      ∃ chains, L.Verify rootCert
        { Roots := L.certsFromPEM (bytesOf kRootPEM), Intermediates := [intermediateCert] } =
          .ok chains := by
  unfold VerifyCert
  generalize L.certsFromPEM (bytesOf kRootPEM) = pool
  cases pool with
  | nil => simp
  | cons c cs =>
    simp only [List.isEmpty_cons, Bool.false_eq_true, if_false, true_and]
    cases hv : L.Verify rootCert { Roots := c :: cs, Intermediates := [intermediateCert] } with
    | error e => simp
    | ok chains => simp

/-- C2: `VerifyCert` does not validate the intermediate.  Under any chain validation that
accepts a certificate which is itself in the trust pool, `VerifyCert(root, intermediate)`
succeeds for every intermediate as soon as the supplied root is in the pool parsed from the
pinned constant, whether or not the intermediate chains to it. -/
theorem VerifyCert_accepts_any_intermediate (L : Libs) (rootCert : Certificate)
    (hpinned : rootCert ∈ L.certsFromPEM (bytesOf kRootPEM))
    (hanchor : ∀ (c : Certificate) (opts : VerifyOptions), c ∈ opts.Roots →
      ∃ chains, L.Verify c opts = .ok chains)
    (intermediateCert : Certificate) :
    VerifyCert L rootCert intermediateCert = none := by
  rw [VerifyCert_eq_none_iff]
  refine ⟨?_, hanchor rootCert _ hpinned⟩
  cases hl : L.certsFromPEM (bytesOf kRootPEM) with
  | nil => rw [hl] at hpinned; cases hpinned
  | cons c cs => rfl

/-- The sample trust pool parsed from the pinned constant holds the sample trust anchor. -/
theorem sampleLibs_pinned_pool :
    sampleLibs.certsFromPEM (bytesOf kRootPEM) = [sampleRootCert] := by
  simp only [sampleLibs, sampleCertsFromPEM, if_true]

/-- C2, at concrete inputs: with the pinned root as root and a self-issued certificate
unrelated to it as intermediate, `VerifyCert` reports success, while path validation of that
intermediate against a pool holding only the pinned root fails. -/
theorem VerifyCert_accepts_any_intermediate_witness :
    VerifyCert sampleLibs sampleRootCert rogueCert = none ∧
    sampleLibs.Verify rogueCert { Roots := [sampleRootCert], Intermediates := [] } =
      .error (.library "x509" "certificate signed by unknown authority") :=
  ⟨VerifyCert_accepts_any_intermediate sampleLibs sampleRootCert
      (sampleLibs_pinned_pool ▸ List.mem_singleton.mpr rfl)
      (by
        intro c opts hc
        refine ⟨[[c]], ?_⟩
        have hcont : opts.Roots.contains c = true := by simpa using hc
        simp only [sampleLibs, sampleVerify, hcont, if_true])
      rogueCert,
   by decide⟩

/-! ## Claims about `DecodeClaims` -/

/-- C1: `DecodeClaims` runs `DecodeCert(payload, 2)`, `DecodeCert(payload, 1)`,
`VerifyCert(root, intermediate)` and the token parse with key function
`DecodePublicKey(payload)`, in that order.  The error of the first stage that returns one is
returned unchanged, whatever the later stages would do, and the call returns no error exactly
when all four stages succeed. -/
theorem DecodeClaims_fail_fast {C : Type} (L : Libs) (J : JwtLib C) (payload : Bytes)
    (claims : C) :
    (∀ e, DecodeCert L payload 2 = .ret (.error e) →
      DecodeClaims L J payload claims = .ret (claims, some e)) ∧
    (∀ root e, DecodeCert L payload 2 = .ret (.ok root) →
      DecodeCert L payload 1 = .ret (.error e) →
      DecodeClaims L J payload claims = .ret (claims, some e)) ∧
    (∀ root inter e, DecodeCert L payload 2 = .ret (.ok root) →
      DecodeCert L payload 1 = .ret (.ok inter) → VerifyCert L root inter = some e →
      DecodeClaims L J payload claims = .ret (claims, some e)) ∧
    (∀ root inter claims1 e, DecodeCert L payload 2 = .ret (.ok root) →
      DecodeCert L payload 1 = .ret (.ok inter) → VerifyCert L root inter = none →
      J.ParseWithClaims payload claims (keyFunc L payload) = .ret (claims1, .error e) →
      DecodeClaims L J payload claims = .ret (claims1, some e)) ∧
    (∀ claims1, DecodeClaims L J payload claims = .ret (claims1, none) ↔
      ∃ root inter tok, DecodeCert L payload 2 = .ret (.ok root) ∧
        DecodeCert L payload 1 = .ret (.ok inter) ∧ VerifyCert L root inter = none ∧
        J.ParseWithClaims payload claims (keyFunc L payload) = .ret (claims1, .ok tok)) ∧
    (∀ tok, keyFunc L payload tok =
      match DecodePublicKey L payload with
      | .panic msg => .panic msg
      | .ret (.error e) => .ret (.error e)
      | .ret (.ok pk) => .ret (.ok (.ecdsa pk))) := by
  refine ⟨?_, ?_, ?_, ?_, ?_, fun _ => rfl⟩
  · intro e h2
    simp only [DecodeClaims, h2]
  · intro root e h2 h1
    simp only [DecodeClaims, h2, h1]
  · intro root inter e h2 h1 hv
    simp only [DecodeClaims, h2, h1, hv]
  · intro root inter claims1 e h2 h1 hv hp
    simp only [DecodeClaims, h2, h1, hv, hp]
  · intro claims1
    unfold DecodeClaims
    cases h2 : DecodeCert L payload 2 with
    | panic msg => simp
    | ret r2 =>
      cases r2 with
      | error e => simp
      | ok root =>
        cases h1 : DecodeCert L payload 1 with
        | panic msg => simp
        | ret r1 =>
          cases r1 with
          | error e => simp
          | ok inter =>
            cases hv : VerifyCert L root inter with
            | some e => simp [hv]
            | none =>
              cases hp : J.ParseWithClaims payload claims (keyFunc L payload) with
              | panic msg => simp [hv]
              | ret r =>
                obtain ⟨c1, res⟩ := r
                cases res with
                | error e => simp [hv]
                | ok tok => simp [hv]

/-- C1, at concrete inputs: a chain without entries fails at the first stage with its error,
and the sample token passes all four stages. -/
theorem DecodeClaims_fail_fast_witness :
    DecodeClaims sampleLibs sampleJwt noCertToken TransactionItem.zero =
      .ret (TransactionItem.zero, some (.text "invalid index")) ∧
    DecodeClaims sampleLibs sampleJwt goodToken TransactionItem.zero =
      .ret (sampleItem, none) :=
  ⟨(DecodeClaims_fail_fast sampleLibs sampleJwt noCertToken TransactionItem.zero).1
      (.text "invalid index") (by decide),
   ((DecodeClaims_fail_fast sampleLibs sampleJwt goodToken TransactionItem.zero).2.2.2.2.1
      sampleItem).2 ⟨sampleRootCert, sampleIntermediateCert, ⟨goodToken, true⟩,
        by decide, by decide, by decide, by decide⟩⟩

/-- C3, as stated, fails: on the sample token with its signature byte zeroed, every stage
before the token parse succeeds, the parse fails on the signature, and `DecodeClaims` returns
that error with the claims target already populated from the payload segment. -/
theorem DecodeClaims_populates_on_signature_error :
    DecodeClaims sampleLibs sampleJwt tamperedToken TransactionItem.zero =
      .ret (sampleItem, some (.library "jwt" "token signature is invalid")) ∧
    sampleItem ≠ TransactionItem.zero := by
  decide

/-- C3, amended: when `DecodeClaims` returns an error, either the error comes from
certificate extraction or chain verification and the claims target is unchanged, or the three
stages before the token parse succeeded and the target is in the state in which the token
parser left it together with that error.  Hence the target is unchanged on every error exactly
as far as the token parser leaves it unchanged when it fails. -/
theorem DecodeClaims_target_on_error {C : Type} (L : Libs) (J : JwtLib C) (payload : Bytes)
    (claims claims1 : C) (e : GoError)
    (hret : DecodeClaims L J payload claims = .ret (claims1, some e)) :
    ((claims1 = claims ∧
        (DecodeCert L payload 2 = .ret (.error e) ∨
          ∃ root, DecodeCert L payload 2 = .ret (.ok root) ∧
            (DecodeCert L payload 1 = .ret (.error e) ∨
              ∃ inter, DecodeCert L payload 1 = .ret (.ok inter) ∧
                VerifyCert L root inter = some e))) ∨
      ∃ root inter, DecodeCert L payload 2 = .ret (.ok root) ∧
        DecodeCert L payload 1 = .ret (.ok inter) ∧ VerifyCert L root inter = none ∧
        J.ParseWithClaims payload claims (keyFunc L payload) = .ret (claims1, .error e)) ∧
    ((∀ c1 e1, J.ParseWithClaims payload claims (keyFunc L payload) = .ret (c1, .error e1) →
        c1 = claims) → claims1 = claims) := by
  unfold DecodeClaims at hret
  cases h2 : DecodeCert L payload 2 with
  | panic msg => simp [h2] at hret
  | ret r2 =>
    cases r2 with
    | error e2 =>
      simp only [h2, Run.ret.injEq, Prod.mk.injEq, Option.some.injEq] at hret
      obtain ⟨hc, he⟩ := hret
      subst hc he
      exact ⟨Or.inl ⟨rfl, Or.inl rfl⟩, fun _ => rfl⟩
    | ok root =>
      cases h1 : DecodeCert L payload 1 with
      | panic msg => simp [h2, h1] at hret
      | ret r1 =>
        cases r1 with
        | error e1 =>
          simp only [h2, h1, Run.ret.injEq, Prod.mk.injEq, Option.some.injEq] at hret
          obtain ⟨hc, he⟩ := hret
          subst hc he
          exact ⟨Or.inl ⟨rfl, Or.inr ⟨root, rfl, Or.inl rfl⟩⟩, fun _ => rfl⟩
        | ok inter =>
          cases hv : VerifyCert L root inter with
          | some ev =>
            simp only [h2, h1, hv, Run.ret.injEq, Prod.mk.injEq, Option.some.injEq] at hret
            obtain ⟨hc, he⟩ := hret
            subst hc he
            exact ⟨Or.inl ⟨rfl, Or.inr ⟨root, rfl, Or.inr ⟨inter, rfl, hv⟩⟩⟩, fun _ => rfl⟩
          | none =>
            cases hp : J.ParseWithClaims payload claims (keyFunc L payload) with
            | panic msg => simp [h2, h1, hv, hp] at hret
            | ret r =>
              obtain ⟨c1, res⟩ := r
              cases res with
              | ok tok => simp [h2, h1, hv, hp] at hret
              | error ep =>
                simp only [h2, h1, hv, hp, Run.ret.injEq, Prod.mk.injEq,
                  Option.some.injEq] at hret
                obtain ⟨hc, he⟩ := hret
                subst hc he
                exact ⟨Or.inr ⟨root, inter, rfl, rfl, hv, rfl⟩, fun hJ => hJ c1 ep rfl⟩

/-- C3 amended, at a concrete input: a token whose chain is empty fails at the first stage,
the extraction of the root, and leaves the zero-valued target as it was. -/
theorem DecodeClaims_target_on_error_witness :
    DecodeClaims sampleLibs sampleJwt noCertToken TransactionItem.zero =
      .ret (TransactionItem.zero, some (.text "invalid index")) ∧
    (TransactionItem.zero = TransactionItem.zero ∧
        (DecodeCert sampleLibs noCertToken 2 = .ret (.error (.text "invalid index")) ∨
          ∃ root, DecodeCert sampleLibs noCertToken 2 = .ret (.ok root) ∧
            (DecodeCert sampleLibs noCertToken 1 = .ret (.error (.text "invalid index")) ∨
              ∃ inter, DecodeCert sampleLibs noCertToken 1 = .ret (.ok inter) ∧
                VerifyCert sampleLibs root inter = some (.text "invalid index"))) ∨
      ∃ root inter, DecodeCert sampleLibs noCertToken 2 = .ret (.ok root) ∧
        DecodeCert sampleLibs noCertToken 1 = .ret (.ok inter) ∧
        VerifyCert sampleLibs root inter = none ∧
        sampleJwt.ParseWithClaims noCertToken TransactionItem.zero
          (keyFunc sampleLibs noCertToken) =
            .ret (TransactionItem.zero, .error (.text "invalid index"))) :=
  ⟨by decide,
   (DecodeClaims_target_on_error sampleLibs sampleJwt noCertToken TransactionItem.zero
      TransactionItem.zero (.text "invalid index") (by decide)).1⟩

/-! ## Claim about `DecodeSignedTransaction` -/

/-- C4, as stated, fails: for the empty string `DecodeSignedTransaction` returns a nil item
together with a nil error. -/
theorem DecodeSignedTransaction_empty :
    DecodeSignedTransaction sampleLibs sampleJwt [] = .ret (none, none) := by
  decide

/-- C4, amended, for every behaviour of the libraries.  For the empty string
`DecodeSignedTransaction` returns a nil item and a nil error.  For every `s` it never returns
an item together with an error.  For every non-empty `s` it returns a non-nil item with a nil
error exactly when `DecodeClaims` succeeded on `s` (and the item is the populated target),
returns a nil item with error `e` exactly when `DecodeClaims` returned `e`, never returns a
nil item with a nil error, and panics exactly when `DecodeClaims` does. -/
theorem DecodeSignedTransaction_outcomes (L : Libs) (J : JwtLib TransactionItem) (s : Bytes) :
    DecodeSignedTransaction L J [] = .ret (none, none) ∧
    (∀ item e, DecodeSignedTransaction L J s ≠ .ret (some item, some e)) ∧
    (s ≠ [] →
      (∀ item, DecodeSignedTransaction L J s = .ret (some item, none) ↔
        DecodeClaims L J s TransactionItem.zero = .ret (item, none)) ∧
      (∀ e, DecodeSignedTransaction L J s = .ret (none, some e) ↔
        ∃ c, DecodeClaims L J s TransactionItem.zero = .ret (c, some e)) ∧
      DecodeSignedTransaction L J s ≠ .ret (none, none) ∧
      (∀ msg, DecodeSignedTransaction L J s = .panic msg ↔
        DecodeClaims L J s TransactionItem.zero = .panic msg)) := by
  refine ⟨by simp [DecodeSignedTransaction], ?_, ?_⟩
  · intro item e
    unfold DecodeSignedTransaction
    by_cases hs : s = []
    · rw [if_pos hs]
      simp
    · rw [if_neg hs]
      cases hd : DecodeClaims L J s TransactionItem.zero with
      | panic msg => simp
      | ret r =>
        obtain ⟨c, oe⟩ := r
        cases oe with
        | none => simp
        | some e1 => simp
  · intro hs
    unfold DecodeSignedTransaction
    rw [if_neg hs]
    cases hd : DecodeClaims L J s TransactionItem.zero with
    | panic msg => simp
    | ret r =>
      obtain ⟨c, oe⟩ := r
      cases oe with
      | none => simp
      | some e => simp

/-- C4 amended, at concrete inputs: the sample token gives its item and no error; the token
with the zeroed signature gives no item and the signature error; the empty string gives
neither. -/
theorem DecodeSignedTransaction_outcomes_witness :
    DecodeSignedTransaction sampleLibs sampleJwt goodToken = .ret (some sampleItem, none) ∧
    DecodeSignedTransaction sampleLibs sampleJwt tamperedToken =
      .ret (none, some (.library "jwt" "token signature is invalid")) ∧
    DecodeSignedTransaction sampleLibs sampleJwt [] = .ret (none, none) :=
  ⟨(((DecodeSignedTransaction_outcomes sampleLibs sampleJwt goodToken).2.2 (by decide)).1
      sampleItem).2 (by decide),
   (((DecodeSignedTransaction_outcomes sampleLibs sampleJwt tamperedToken).2.2 (by decide)).2.1
      (.library "jwt" "token signature is invalid")).2 ⟨sampleItem, by decide⟩,
   (DecodeSignedTransaction_outcomes sampleLibs sampleJwt goodToken).1⟩

end Apple
